import Mathlib

set_option maxRecDepth 8192

/-!
Shallow embedding of `real_estate_analysis_optimized.py`.

The only algorithmic components of the repository are the dataset
synthesizer `create_dataset` (lines 42-84), the group-by aggregation used
by `co3_analysis` (lines 217, 226), the in-place `Price_Range` column
assignment in `co3_analysis` (line 241), and the two CSV exports
(`main`, line 431, and `co5_analysis`, line 331).

Numeric modelling: Python floats are idealized as rationals (ℚ).
`round(x, n)` is modelled by `pyRound n`; Python rounds ties to even while
`pyRound` uses Mathlib's `round` (ties up); no property proved here
depends on tie behaviour, only on `|pyRound n x - x| ≤ 1/(2·10^n)` and on
monotonicity, which hold for both.

Randomness: `np.random.seed(42)` fixes the numpy PRNG, after which each
sampling call deterministically consumes the stream.  We model the stream
as a function `g : ℕ → Draws` giving, for each loop index `i`, the values
delivered by the eight sampling calls of that iteration:
* `np.random.choice(items, p)` inverts the CDF of `p` on a unit draw
  (`choiceP`),
* `np.random.choice(items)` (uniform) picks index `⌊u·n⌋` of a unit draw
  (`uniformIdx`),
* `np.random.normal(mean, std)` is `mean + std * z` for a standard normal
  variate `z` (location-scale contract of the library call),
* `np.random.uniform(a, b)` is `a + (b-a)·u` for a unit draw `u`,
* `np.random.randint(lo, hi)` returns `lo + (k % (hi-lo))` for the
  library's internal integer draw `k` (always in range, per its contract).
A unit draw is valid when it lies in `[0, 1)`; theorems that need this
assume it explicitly, the rest hold for arbitrary draws.
-/

/-- Python `round(q, nd)`: round to `nd` decimal digits. -/
def pyRound (nd : ℕ) (q : ℚ) : ℚ :=
  ((round (q * 10 ^ nd) : ℤ) : ℚ) / 10 ^ nd

/-- Python `int(q)`: truncation toward zero. -/
def pyInt (q : ℚ) : ℤ :=
  if q < 0 then -⌊-q⌋ else ⌊q⌋

/-- The call `np.random.choice(xs, p=ps)` as CDF inversion on a unit draw `u`:
take the first item whose cumulative probability exceeds `u`.  The
accumulator `d` is returned only for an empty item list; when the
probabilities are exhausted the first remaining item is taken, so for a
valid draw (`u < Σ ps = 1`) this is exactly numpy's behaviour. -/
def choiceP {α : Type} : α → List α → List ℚ → ℚ → α
  | d, [], _, _ => d
  | _, x :: _, [], _ => x
  | _, x :: xs, p :: ps, u => if u < p then x else choiceP x xs ps (u - p)

/-- Uniform `np.random.choice` over `n` items: index `⌊u·n⌋` for a unit
draw `u` (the `min` clamp is inert for valid draws `0 ≤ u < 1`). -/
def uniformIdx (n : ℕ) (u : ℚ) : ℕ :=
  min (⌊u * (n : ℚ)⌋.toNat) (n - 1)

/-- The call `np.random.uniform(a, b)` on a unit draw `u`. -/
def uniformR (a b u : ℚ) : ℚ := a + (b - a) * u

/-- The call `np.random.normal(mean, std)` on a standard normal variate `z`
(location-scale contract of the library call). -/
def normalSample (ms : ℚ × ℚ) (z : ℚ) : ℚ := ms.1 + ms.2 * z

/-- The list `types = ['Apartment', 'Villa', 'House', 'Condo', 'Townhouse']`. -/
def typeNames : List String := ["Apartment", "Villa", "House", "Condo", "Townhouse"]

/-- Selection probabilities `p=[0.30, 0.15, 0.25, 0.20, 0.10]`. -/
def typeProbs : List ℚ := [0.30, 0.15, 0.25, 0.20, 0.10]

/-- The `locations` dict: city name ↦ (base latitude, base longitude),
in insertion order. -/
def locationsList : List (String × ℚ × ℚ) :=
  [("New York", 40.7128, -74.0060), ("Los Angeles", 34.0522, -118.2437),
   ("Chicago", 41.8781, -87.6298), ("Houston", 29.7604, -95.3698),
   ("Phoenix", 33.4484, -112.0740), ("Philadelphia", 39.9526, -75.1652),
   ("San Antonio", 29.4241, -98.4936), ("San Diego", 32.7157, -117.1611),
   ("Dallas", 32.7767, -96.7970), ("San Jose", 37.3382, -121.8863)]

/-- The key list `list(locations.keys())`. -/
def cityNames : List String := locationsList.map Prod.fst

/-- The dict lookup `locations[loc]` (base coordinates of a city). -/
def baseOf (loc : String) : ℚ × ℚ :=
  ((locationsList.lookup loc).getD (0, 0))

/-- The dict `area_ranges`: type ↦ (mean, std) of the area distribution. -/
def areaRangesList : List (String × ℚ × ℚ) :=
  [("Apartment", 900, 300), ("Villa", 3500, 800), ("House", 2000, 500),
   ("Condo", 1200, 400), ("Townhouse", 1800, 450)]

/-- The dict `price_per_sqft`: city ↦ base price per square foot. -/
def pricePerSqftList : List (String × ℚ) :=
  [("New York", 800), ("Los Angeles", 650), ("Chicago", 350), ("Houston", 250),
   ("Phoenix", 280), ("Philadelphia", 320), ("San Antonio", 200),
   ("San Diego", 600), ("Dallas", 300), ("San Jose", 850)]

/-- The dict `type_mult`: type ↦ price multiplier. -/
def typeMultList : List (String × ℚ) :=
  [("Apartment", 0.9), ("Villa", 1.3), ("House", 1.0), ("Condo", 0.95),
   ("Townhouse", 1.05)]

/-- Parking probabilities `p=[0.1, 0.4, 0.35, 0.15]` over `[0, 1, 2, 3]`. -/
def parkingProbs : List ℚ := [0.1, 0.4, 0.35, 0.15]

/-- The values delivered by the eight sampling calls of one loop
iteration of `create_dataset`, in program order. -/
structure Draws where
  typeU : ℚ
  locU : ℚ
  areaZ : ℚ
  noiseU : ℚ
  latU : ℚ
  lonU : ℚ
  yearK : ℕ
  parkU : ℚ

/-- Line 67: `ptype = str(np.random.choice(types, p=[0.30, 0.15, 0.25, 0.20, 0.10]))`. -/
def ptypeOf (d : Draws) : String :=
  choiceP "" typeNames typeProbs d.typeU

/-- Line 68: `loc = str(np.random.choice(list(locations.keys())))`. -/
def locOf (d : Draws) : String :=
  cityNames.getD (uniformIdx 10 d.locU) ""

/-- Line 70: `area = max(500, np.random.normal(*area_ranges[ptype]))`. -/
def areaOf (d : Draws) : ℚ :=
  max 500 (normalSample ((areaRangesList.lookup (ptypeOf d)).getD (0, 0)) d.areaZ)

/-- Line 71: `price = area * price_per_sqft[loc] * type_mult[ptype] * np.random.uniform(0.85, 1.15)`. -/
def priceOf (d : Draws) : ℚ :=
  areaOf d * ((pricePerSqftList.lookup (locOf d)).getD 0)
    * ((typeMultList.lookup (ptypeOf d)).getD 0) * uniformR 0.85 1.15 d.noiseU

/-- Zero-pad a numeral to four digits: Python `f'{n:04d}'` for `0 ≤ n`. -/
def pad4 (n : ℕ) : String :=
  let s := toString n
  String.mk (List.replicate (4 - s.length) '0') ++ s

/-- One row of the synthesized table: the dict literal of
`create_dataset` lines 73-82, fields in insertion order.  The `Type`
column is called `Type'` because `Type` is reserved in Lean. -/
structure Row where
  Property_ID : String
  Type' : String
  Price : ℚ
  Area_SqFt : ℚ
  Location : String
  Latitude : ℚ
  Longitude : ℚ
  Bedrooms : ℤ
  Bathrooms : ℤ
  Year_Built : ℤ
  Parking_Spaces : ℤ
  Price_Per_SqFt : ℚ

/-- The loop body of `create_dataset` for index `i` with draws `d`. -/
def mkRow (i : ℕ) (d : Draws) : Row :=
  { Property_ID := "PROP_" ++ pad4 (i + 1)
    Type' := ptypeOf d
    Price := pyRound 2 (priceOf d)
    Area_SqFt := pyRound 2 (areaOf d)
    Location := locOf d
    Latitude := pyRound 4 ((baseOf (locOf d)).1 + uniformR (-0.5) 0.5 d.latU)
    Longitude := pyRound 4 ((baseOf (locOf d)).2 + uniformR (-0.5) 0.5 d.lonU)
    Bedrooms := max 1 (pyInt (areaOf d / 500))
    Bathrooms := max 1 (pyInt (areaOf d / 667))
    Year_Built := 1950 + ((d.yearK % 74 : ℕ) : ℤ)
    Parking_Spaces := choiceP 0 [0, 1, 2, 3] parkingProbs d.parkU
    Price_Per_SqFt := pyRound 2 (priceOf d / areaOf d) }

/-- The function `create_dataset`: `n = 500` rows built from the seeded draw stream. -/
def create_dataset (g : ℕ → Draws) : List Row :=
  (List.range 500).map (fun i => mkRow i (g i))

/-- The draw stream delivered by the numpy PRNG after `np.random.seed 42`
is some fixed function of the seed; all-zero draws serve as a concrete
stream for witnesses. -/
def zeroDraws : ℕ → Draws := fun _ => ⟨0, 0, 0, 0, 0, 0, 0, 0⟩

/-- Unit draws used for latitude/longitude jitter lie in `[0, 1)`. -/
def ValidJitter (g : ℕ → Draws) : Prop :=
  ∀ i, 0 ≤ (g i).latU ∧ (g i).latU < 1 ∧ 0 ≤ (g i).lonU ∧ (g i).lonU < 1

/-- The aggregation `df.groupby('Type')['Price'].sum()` (`co3_analysis`, lines 217/226):
one entry per distinct `Type` value occurring in the table, holding the
sum of `Price` over the rows of that group. -/
def typeGroupTotals (rows : List Row) : List (String × ℚ) :=
  ((rows.map Row.Type').dedup).map
    (fun t => (t, ((rows.filter (fun r => r.Type' = t)).map Row.Price).sum))

/-- The in-memory DataFrame: the rows produced by `create_dataset`, plus
the `Price_Range` column once `co3_analysis` (line 241) has assigned it
in place (`none` before, `some` after; `pd.cut` yields NaN — `none` —
for prices outside every bin). -/
structure Frame where
  rows : List Row
  priceRange : Option (List (Option String))

/-- The DataFrame as returned by `create_dataset` (no extra column). -/
def initFrame (g : ℕ → Draws) : Frame :=
  { rows := create_dataset g, priceRange := none }

/-- The binning `pd.cut(price, bins=[0, 500000, 1000000, 2000000, inf], labels=...)`:
right-closed bins, NaN outside `(0, ∞)`. -/
def priceRangeLabel (p : ℚ) : Option String :=
  if p ≤ 0 then none
  else if p ≤ 500000 then some "<$500K"
  else if p ≤ 1000000 then some "$500K-$1M"
  else if p ≤ 2000000 then some "$1M-$2M"
  else some ">$2M"

/-- The in-place mutation `df['Price_Range'] = pd.cut(df['Price'], ...)`
performed by `co3_analysis` (line 241). -/
def co3AddPriceRange (f : Frame) : Frame :=
  { rows := f.rows, priceRange := some (f.rows.map (fun r => priceRangeLabel r.Price)) }

/-- Header of a CSV export of the frame (`df.to_csv(..., index=False)`):
the dict-insertion-order columns, plus `Price_Range` if assigned. -/
def csvColumns (f : Frame) : List String :=
  ["Property_ID", "Type", "Price", "Area_SqFt", "Location", "Latitude",
   "Longitude", "Bedrooms", "Bathrooms", "Year_Built", "Parking_Spaces",
   "Price_Per_SqFt"] ++
    (match f.priceRange with
     | some _ => ["Price_Range"]
     | none => [])

/-- The run's two tabular exports: `output/real_estate_dataset.csv` is
written by `main` (line 431) right after `create_dataset`, while
`output/real_estate_data_for_powerbi.csv` is written by `co5_analysis`
(line 331) after `co3_analysis` has added the `Price_Range` column to
the shared DataFrame.  `co1`, `co2`, `co4` and the rest of `co3`/`co5`
only read the frame. -/
def runExports (g : ℕ → Draws) : Frame × Frame :=
  (initFrame g, co3AddPriceRange (initFrame g))

/-! Lemmas about the numeric primitives -/

theorem pyRound_sub_abs_le (nd : ℕ) (q : ℚ) :
    |pyRound nd q - q| ≤ 1 / (2 * 10 ^ nd) := by
  have h10 : (0 : ℚ) < 10 ^ nd := by positivity
  have h := abs_sub_round (q * 10 ^ nd)
  rw [abs_sub_comm] at h
  have e : pyRound nd q - q
      = (((round (q * 10 ^ nd) : ℤ) : ℚ) - q * 10 ^ nd) / 10 ^ nd := by
    rw [pyRound]; field_simp; ring
  rw [e, abs_div, abs_of_pos h10]
  have h2 : |((round (q * 10 ^ nd) : ℤ) : ℚ) - q * 10 ^ nd| / 10 ^ nd
      ≤ (1 / 2) / 10 ^ nd := (div_le_div_iff_of_pos_right h10).mpr h
  have h3 : ((1 : ℚ) / 2) / 10 ^ nd = 1 / (2 * 10 ^ nd) := by ring
  rw [h3] at h2
  exact h2

theorem pyRound_mono (nd : ℕ) {q r : ℚ} (h : q ≤ r) :
    pyRound nd q ≤ pyRound nd r := by
  have h10 : (0 : ℚ) < 10 ^ nd := by positivity
  have hr : round (q * 10 ^ nd) ≤ round (r * 10 ^ nd) := by
    rw [round_eq, round_eq]
    exact Int.floor_le_floor (by nlinarith)
  rw [pyRound, pyRound]
  exact (div_le_div_iff_of_pos_right h10).mpr (by exact_mod_cast hr)

theorem pyInt_of_nonneg {q : ℚ} (h : 0 ≤ q) : pyInt q = ⌊q⌋ :=
  if_neg (not_lt.mpr h)

theorem pyRound_two_of_500 : pyRound 2 500 = 500 := by
  rw [pyRound, round_eq]
  norm_num

/-! Lemmas about the sampling primitives -/

theorem choiceP_mem {α : Type} :
    ∀ (xs : List α) (d : α) (ps : List ℚ) (u : ℚ), xs ≠ [] → choiceP d xs ps u ∈ xs := by
  intro xs
  induction xs with
  | nil => intro _ _ _ h; exact absurd rfl h
  | cons x xs ih =>
    intro d ps u _
    cases ps with
    | nil => simp [choiceP]
    | cons p ps =>
      simp only [choiceP]
      split
      · exact List.mem_cons_self x xs
      · cases xs with
        | nil => simp [choiceP]
        | cons y ys =>
          exact List.mem_cons_of_mem x (ih x ps (u - p) (by simp))

theorem uniformIdx_le (n : ℕ) (u : ℚ) : uniformIdx n u ≤ n - 1 :=
  min_le_right _ _

theorem areaOf_ge_500 (d : Draws) : 500 ≤ areaOf d :=
  le_max_left _ _

theorem areaOf_pos (d : Draws) : 0 < areaOf d :=
  lt_of_lt_of_le (by norm_num) (areaOf_ge_500 d)

/-- Looking up the key of the `i`-th entry of an association list with
distinct keys returns that entry's value. -/
theorem lookup_get_of_nodupKeys (l : List (String × ℚ × ℚ))
    (hnd : (l.map Prod.fst).Nodup) (i : ℕ) (h : i < l.length) :
    l.lookup (l.get ⟨i, h⟩).1 = some (l.get ⟨i, h⟩).2 := by
  induction l generalizing i with
  | nil => simp at h
  | cons x xs ih =>
    cases i with
    | zero => simp [List.lookup]
    | succ j =>
      have hj : j < xs.length := by simpa using h
      simp only [List.map_cons, List.nodup_cons] at hnd
      have hne : x.1 ≠ (xs.get ⟨j, hj⟩).1 := by
        intro he
        apply hnd.1
        rw [List.mem_map]
        exact ⟨xs.get ⟨j, hj⟩, List.get_mem xs j hj, he.symm⟩
      have hget : (x :: xs).get ⟨j + 1, h⟩ = xs.get ⟨j, hj⟩ := rfl
      rw [hget, List.lookup]
      have hbeq : ((xs.get ⟨j, hj⟩).1 == x.1) = false :=
        beq_eq_false_iff_ne.mpr (fun he => hne he.symm)
      rw [hbeq]
      exact ih hnd.2 j hj

/-- The ten city names of the `locations` dict are distinct. -/
theorem locations_keys_nodup : (locationsList.map Prod.fst).Nodup := by decide

/-- Every base coordinate in the `locations` dict is an exact multiple
of `1/10^4` (all are given to four decimal places). -/
theorem locations_coords_int4 : ∀ p ∈ locationsList,
    (∃ k : ℤ, p.2.1 = (k : ℚ) / 10 ^ 4) ∧ ∃ k : ℤ, p.2.2 = (k : ℚ) / 10 ^ 4 := by
  intro p hp
  simp only [locationsList, List.mem_cons, List.not_mem_nil, or_false] at hp
  rcases hp with h | h | h | h | h | h | h | h | h | h <;> subst h
  · exact ⟨⟨407128, by norm_num⟩, ⟨-740060, by norm_num⟩⟩
  · exact ⟨⟨340522, by norm_num⟩, ⟨-1182437, by norm_num⟩⟩
  · exact ⟨⟨418781, by norm_num⟩, ⟨-876298, by norm_num⟩⟩
  · exact ⟨⟨297604, by norm_num⟩, ⟨-953698, by norm_num⟩⟩
  · exact ⟨⟨334484, by norm_num⟩, ⟨-1120740, by norm_num⟩⟩
  · exact ⟨⟨399526, by norm_num⟩, ⟨-751652, by norm_num⟩⟩
  · exact ⟨⟨294241, by norm_num⟩, ⟨-984936, by norm_num⟩⟩
  · exact ⟨⟨327157, by norm_num⟩, ⟨-1171611, by norm_num⟩⟩
  · exact ⟨⟨327767, by norm_num⟩, ⟨-967970, by norm_num⟩⟩
  · exact ⟨⟨373382, by norm_num⟩, ⟨-1218863, by norm_num⟩⟩

/-- Rounding to four decimals keeps a jittered coordinate within `1/2`
of its base, provided the base is an exact multiple of `1/10^4`. -/
theorem round4_jitter {b j : ℚ} (k : ℤ) (hb : b = (k : ℚ) / 10 ^ 4)
    (h1 : -(1 / 2) ≤ j) (h2 : j < 1 / 2) : |pyRound 4 (b + j) - b| ≤ 1 / 2 := by
  have e1 : (b + j) * 10 ^ 4 = j * 10 ^ 4 + (k : ℚ) := by
    rw [hb]; field_simp; ring
  have e2 : pyRound 4 (b + j) = ((round (j * 10 ^ 4) + k : ℤ) : ℚ) / 10 ^ 4 := by
    rw [pyRound, e1, round_add_int]
  have hub : round (j * 10 ^ 4) ≤ 5000 := by
    rw [round_eq]
    have hlt : ⌊j * 10 ^ 4 + 1 / 2⌋ < 5001 := by
      apply Int.floor_lt.mpr
      push_cast
      nlinarith
    omega
  have hlb : -5000 ≤ round (j * 10 ^ 4) := by
    rw [round_eq]
    apply Int.le_floor.mpr
    push_cast
    nlinarith
  have e3 : pyRound 4 (b + j) - b = ((round (j * 10 ^ 4) : ℤ) : ℚ) / 10 ^ 4 := by
    rw [e2, hb]
    push_cast
    ring
  rw [e3, abs_div, abs_of_pos (by norm_num : (0 : ℚ) < 10 ^ 4)]
  have habs : |((round (j * 10 ^ 4) : ℤ) : ℚ)| ≤ 5000 := by
    rw [abs_le]
    constructor
    · exact_mod_cast hlb
    · exact_mod_cast hub
  calc |((round (j * 10 ^ 4) : ℤ) : ℚ)| / 10 ^ 4
      ≤ 5000 / 10 ^ 4 :=
        (div_le_div_iff_of_pos_right (by norm_num : (0 : ℚ) < 10 ^ 4)).mpr habs
    _ = 1 / 2 := by norm_num

/-- Reading `getD` on the key list agrees with the underlying entry list. -/
theorem getD_map_fst (l : List (String × ℚ × ℚ)) (i : ℕ) (h : i < l.length) :
    (l.map Prod.fst).getD i "" = (l.get ⟨i, h⟩).1 := by
  rw [List.getD_eq_getElem?_getD, List.getElem?_map,
    List.getElem?_eq_getElem h]
  rfl

/-- Two-decimal rounding keeps `price_per_sqft · area` close to `price`:
for any `p` and any `a ≠ 0`, the rounded quotient times the rounded `a`
differs from the rounded `p` by at most `(|A| + |S| + 2)/200` where `A`,
`S` are the stored (rounded) values. -/
theorem round2_product_close {p a : ℚ} (ha : a ≠ 0) :
    |pyRound 2 (p / a) * pyRound 2 a - pyRound 2 p|
      ≤ (|pyRound 2 a| + |pyRound 2 (p / a)| + 2) / 200 := by
  set S := pyRound 2 (p / a) with hSdef
  set A := pyRound 2 a with hAdef
  set P := pyRound 2 p with hPdef
  have hnum : (1 : ℚ) / (2 * 10 ^ 2) = 1 / 200 := by norm_num
  have hS : |S - p / a| ≤ 1 / 200 := by
    have h := pyRound_sub_abs_le 2 (p / a)
    rw [hnum] at h
    exact h
  have hA : |A - a| ≤ 1 / 200 := by
    have h := pyRound_sub_abs_le 2 a
    rw [hnum] at h
    exact h
  have hP : |P - p| ≤ 1 / 200 := by
    have h := pyRound_sub_abs_le 2 p
    rw [hnum] at h
    exact h
  have key : S * A - P = (S - p / a) * A + (p / a) * (A - a) - (P - p) := by
    field_simp
    ring
  have tri : |S * A - P| ≤ |(S - p / a) * A| + |(p / a) * (A - a)| + |P - p| := by
    rw [key]
    calc |(S - p / a) * A + (p / a) * (A - a) - (P - p)|
        ≤ |(S - p / a) * A + (p / a) * (A - a)| + |P - p| := by
          rw [sub_eq_add_neg]
          refine (abs_add _ _).trans ?_
          rw [abs_neg]
      _ ≤ |(S - p / a) * A| + |(p / a) * (A - a)| + |P - p| := by
          have := abs_add ((S - p / a) * A) ((p / a) * (A - a))
          linarith
  have hpa : |p / a| ≤ |S| + 1 / 200 := by
    have h1 : |p / a| ≤ |S| + |S - p / a| := by
      calc |p / a| = |S - (S - p / a)| := by ring_nf
        _ ≤ |S| + |S - p / a| := abs_sub _ _
    linarith
  have b1 : |(S - p / a) * A| ≤ (1 / 200) * |A| := by
    rw [abs_mul]
    exact mul_le_mul_of_nonneg_right hS (abs_nonneg A)
  have b2 : |(p / a) * (A - a)| ≤ (|S| + 1 / 200) * (1 / 200) := by
    rw [abs_mul]
    exact mul_le_mul hpa hA (abs_nonneg _) (by positivity)
  have hSnn : 0 ≤ |S| := abs_nonneg S
  have hAnn : 0 ≤ |A| := abs_nonneg A
  nlinarith [tri, b1, b2, hP]

/-- For a valid unit draw, `np.random.uniform(-0.5, 0.5)` lies in
`[-1/2, 1/2)`. -/
theorem uniformR_jitter_bounds {u : ℚ} (h0 : 0 ≤ u) (h1 : u < 1) :
    -(1 / 2) ≤ uniformR (-0.5) 0.5 u ∧ uniformR (-0.5) 0.5 u < 1 / 2 := by
  rw [uniformR]
  norm_num
  constructor <;> linarith

/-- Summing a value over the fibers of a key function, fiber by fiber
over any key set covering the list, recovers the total sum. -/
theorem sum_fiber_sums (key : Row → String) (val : Row → ℚ) (l : List Row) :
    ∀ (s : Finset String), (∀ x ∈ l, key x ∈ s) →
      (∑ t in s, ((l.filter (fun x => key x = t)).map val).sum)
        = (l.map val).sum := by
  induction l with
  | nil => intro s _; simp
  | cons x l ih =>
    intro s hcov
    have hx : key x ∈ s := hcov x (List.mem_cons_self x l)
    have hrec := ih s (fun y hy => hcov y (List.mem_cons_of_mem x hy))
    have step : ∀ t, (((x :: l).filter (fun y => key y = t)).map val).sum
        = (if key x = t then val x else 0)
          + ((l.filter (fun y => key y = t)).map val).sum := by
      intro t
      by_cases h : key x = t <;> simp [List.filter_cons, h]
    calc (∑ t in s, (((x :: l).filter (fun y => key y = t)).map val).sum)
        = ∑ t in s, ((if key x = t then val x else 0)
            + ((l.filter (fun y => key y = t)).map val).sum) :=
          Finset.sum_congr rfl (fun t _ => step t)
      _ = (∑ t in s, if key x = t then val x else 0)
            + ∑ t in s, ((l.filter (fun y => key y = t)).map val).sum :=
          Finset.sum_add_distrib
      _ = val x + (l.map val).sum := by
          rw [hrec, Finset.sum_ite_eq s (key x) (fun _ => val x), if_pos hx]
      _ = ((x :: l).map val).sum := by simp

/-- The group-by totals of `co3_analysis` add up to the total sum of
`Price` over the table, for any table. -/
theorem typeGroupTotals_sum (rows : List Row) :
    ((typeGroupTotals rows).map Prod.snd).sum = (rows.map Row.Price).sum := by
  rw [typeGroupTotals, List.map_map]
  have hcomp : (Prod.snd ∘ fun t =>
      (t, ((rows.filter (fun r => r.Type' = t)).map Row.Price).sum))
      = fun t => ((rows.filter (fun r => r.Type' = t)).map Row.Price).sum := rfl
  rw [hcomp]
  have hnd : ((rows.map Row.Type').dedup).Nodup := List.nodup_dedup _
  rw [← List.sum_toFinset _ hnd]
  apply sum_fiber_sums
  intro x hx
  rw [List.mem_toFinset, List.mem_dedup]
  exact List.mem_map_of_mem Row.Type' hx

/-- Pointwise facts about `mkRow` lift to all rows of the dataset. -/
theorem create_dataset_forall {P : Row → Prop} (h : ∀ i d, P (mkRow i d))
    (g : ℕ → Draws) : (create_dataset g).Forall P := by
  rw [List.forall_iff_forall_mem]
  intro r hr
  simp only [create_dataset, List.mem_map] at hr
  obtain ⟨i, _, rfl⟩ := hr
  exact h i (g i)

/-! Claim theorems -/

/-- C1: for a fixed seed (and hence a fixed draw stream — the numpy PRNG
is a deterministic function of its seed), two independent runs of
`create_dataset` produce identical tables, equal row for row and field
for field. -/
theorem c1_create_dataset_deterministic (g₁ g₂ : ℕ → Draws)
    (h : ∀ i, g₁ i = g₂ i) :
    create_dataset g₁ = create_dataset g₂ ∧
      ∀ j, (create_dataset g₁).get? j = (create_dataset g₂).get? j := by
  have hg : g₁ = g₂ := funext h
  subst hg
  exact ⟨rfl, fun _ => rfl⟩

theorem c1_witness :
    (∀ i, zeroDraws i = zeroDraws i) ∧
      (create_dataset zeroDraws = create_dataset zeroDraws ∧
        ∀ j, (create_dataset zeroDraws).get? j
          = (create_dataset zeroDraws).get? j) :=
  ⟨fun _ => rfl, c1_create_dataset_deterministic zeroDraws zeroDraws (fun _ => rfl)⟩

/-- C2: every record stores `Bedrooms = max(1, ⌊area/500⌋)` and
`Bathrooms = max(1, ⌊area/667⌋)`, exactly, where `area` is the record's
clamped area (the stored `Area_SqFt` is its two-decimal rounding). -/
theorem c2_bedrooms_bathrooms (g : ℕ → Draws) :
    (create_dataset g).Forall (fun r => ∃ area : ℚ, 500 ≤ area ∧
      r.Area_SqFt = pyRound 2 area ∧
      r.Bedrooms = max 1 ⌊area / 500⌋ ∧ r.Bathrooms = max 1 ⌊area / 667⌋) := by
  apply create_dataset_forall
  intro i d
  have ha : (0 : ℚ) ≤ areaOf d := le_of_lt (areaOf_pos d)
  refine ⟨areaOf d, areaOf_ge_500 d, rfl, ?_, ?_⟩
  · show max 1 (pyInt (areaOf d / 500)) = max 1 ⌊areaOf d / 500⌋
    rw [pyInt_of_nonneg (div_nonneg ha (by norm_num))]
  · show max 1 (pyInt (areaOf d / 667)) = max 1 ⌊areaOf d / 667⌋
    rw [pyInt_of_nonneg (div_nonneg ha (by norm_num))]

/-- C3: for every record, the stored `Price_Per_SqFt` times the stored
`Area_SqFt` equals the stored `Price` up to the two-decimal rounding
tolerance `(|Area_SqFt| + |Price_Per_SqFt| + 2)/200` (each stored field
is the exact value rounded to two decimals, so the product drifts from
the price by at most half a cent per unit of the factors). -/
theorem c3_price_times_area (g : ℕ → Draws) :
    (create_dataset g).Forall (fun r =>
      |r.Price_Per_SqFt * r.Area_SqFt - r.Price|
        ≤ (|r.Area_SqFt| + |r.Price_Per_SqFt| + 2) / 200) := by
  apply create_dataset_forall
  intro i d
  exact round2_product_close (ne_of_gt (areaOf_pos d))

/-- C4 (counterexample): the table IS modified after `create_dataset`
returns — `co3_analysis` assigns the `Price_Range` column in place — so
the Power BI export (written afterwards by `co5_analysis`) and the
dataset export (written before) do not have identical columns. -/
theorem c4_counterexample :
    (runExports zeroDraws).2 ≠ (runExports zeroDraws).1 ∧
      csvColumns (runExports zeroDraws).2 ≠ csvColumns (runExports zeroDraws).1 := by
  constructor
  · intro h
    have h2 := congrArg Frame.priceRange h
    simp [runExports, co3AddPriceRange, initFrame] at h2
  · intro h
    have h2 := congrArg List.length h
    simp [csvColumns, runExports, co3AddPriceRange, initFrame] at h2

/-- C4 (amended): the single mutation after `create_dataset` is
`co3_analysis` adding the derived `Price_Range` column; the rows
themselves are unchanged, so the Power BI export carries exactly the
dataset export's columns plus `Price_Range`, with identical records on
the shared columns. -/
theorem c4_amended (g : ℕ → Draws) :
    (co3AddPriceRange (initFrame g)).rows = (initFrame g).rows ∧
      csvColumns (co3AddPriceRange (initFrame g))
        = csvColumns (initFrame g) ++ ["Price_Range"] :=
  ⟨rfl, rfl⟩

/-- C5: every record's stored `Area_SqFt` is at least 500; the normal
sample is clamped to 500 before any derived field is computed. -/
theorem c5_area_clamped (g : ℕ → Draws) :
    (create_dataset g).Forall (fun r => 500 ≤ r.Area_SqFt) := by
  apply create_dataset_forall
  intro i d
  show (500 : ℚ) ≤ pyRound 2 (areaOf d)
  calc (500 : ℚ) = pyRound 2 500 := pyRound_two_of_500.symm
    _ ≤ pyRound 2 (areaOf d) := pyRound_mono 2 (areaOf_ge_500 d)

/-- C6: every record's `Type` is one of the five fixed categories and
its `Parking_Spaces` is one of `{0, 1, 2, 3}`. -/
theorem c6_type_and_parking (g : ℕ → Draws) :
    (create_dataset g).Forall (fun r =>
      r.Type' ∈ typeNames ∧ r.Parking_Spaces ∈ ([0, 1, 2, 3] : List ℤ)) := by
  apply create_dataset_forall
  intro i d
  constructor
  · exact choiceP_mem typeNames "" typeProbs d.typeU (by simp [typeNames])
  · exact choiceP_mem [0, 1, 2, 3] 0 parkingProbs d.parkU (by simp)

/-- C7: every record's stored `Latitude`/`Longitude` is within half a
degree of its city's base coordinate (base plus uniform jitter in
`[-0.5, 0.5]`, rounded to four decimals). -/
theorem c7_latlon_jitter (g : ℕ → Draws) (hv : ValidJitter g) :
    (create_dataset g).Forall (fun r => ∃ p, p ∈ locationsList ∧
      r.Location = p.1 ∧ |r.Latitude - p.2.1| ≤ 1 / 2 ∧
        |r.Longitude - p.2.2| ≤ 1 / 2) := by
  rw [List.forall_iff_forall_mem]
  intro r hr
  simp only [create_dataset, List.mem_map] at hr
  obtain ⟨i, _, rfl⟩ := hr
  obtain ⟨h1, h2, h3, h4⟩ := hv i
  have hidx : uniformIdx 10 ((g i).locU) < locationsList.length := by
    have h9 := uniformIdx_le 10 ((g i).locU)
    have hlen : locationsList.length = 10 := rfl
    omega
  set e := locationsList.get ⟨uniformIdx 10 ((g i).locU), hidx⟩ with hedef
  have hloc : locOf (g i) = e.1 := by
    rw [locOf, cityNames, getD_map_fst locationsList _ hidx]
  have hbase : baseOf (locOf (g i)) = e.2 := by
    rw [hloc, baseOf,
      lookup_get_of_nodupKeys locationsList locations_keys_nodup _ hidx]
    rfl
  have hmem : e ∈ locationsList := List.get_mem _ _ _
  obtain ⟨⟨k1, hk1⟩, ⟨k2, hk2⟩⟩ := locations_coords_int4 e hmem
  refine ⟨e, hmem, hloc, ?_, ?_⟩
  · show |pyRound 4 ((baseOf (locOf (g i))).1
        + uniformR (-0.5) 0.5 ((g i).latU)) - e.2.1| ≤ 1 / 2
    rw [hbase]
    obtain ⟨hj1, hj2⟩ := uniformR_jitter_bounds h1 h2
    exact round4_jitter k1 hk1 hj1 hj2
  · show |pyRound 4 ((baseOf (locOf (g i))).2
        + uniformR (-0.5) 0.5 ((g i).lonU)) - e.2.2| ≤ 1 / 2
    rw [hbase]
    obtain ⟨hj1, hj2⟩ := uniformR_jitter_bounds h3 h4
    exact round4_jitter k2 hk2 hj1 hj2

theorem c7_witness :
    ValidJitter zeroDraws ∧
      (create_dataset zeroDraws).Forall (fun r => ∃ p, p ∈ locationsList ∧
        r.Location = p.1 ∧ |r.Latitude - p.2.1| ≤ 1 / 2 ∧
          |r.Longitude - p.2.2| ≤ 1 / 2) :=
  have hv : ValidJitter zeroDraws := fun _ => by norm_num [zeroDraws]
  ⟨hv, c7_latlon_jitter zeroDraws hv⟩

/-- C8: every record's `Year_Built` is an integer in `[1950, 2024)`,
i.e. between 1950 and 2023 inclusive. -/
theorem c8_year_built_range (g : ℕ → Draws) :
    (create_dataset g).Forall (fun r =>
      1950 ≤ r.Year_Built ∧ r.Year_Built ≤ 2023) := by
  apply create_dataset_forall
  intro i d
  show 1950 ≤ 1950 + ((d.yearK % 74 : ℕ) : ℤ)
    ∧ 1950 + ((d.yearK % 74 : ℕ) : ℤ) ≤ 2023
  have h : d.yearK % 74 < 74 := Nat.mod_lt _ (by norm_num)
  omega

/-- C9: grouping the generated table by `type` and summing `price` over
the groups yields totals adding up to the sum of all individual prices:
no record is double counted or omitted. -/
theorem c9_groupby_sum_consistent (g : ℕ → Draws) :
    ((typeGroupTotals (create_dataset g)).map Prod.snd).sum
      = ((create_dataset g).map Row.Price).sum :=
  typeGroupTotals_sum (create_dataset g)

/-- C10: every record satisfies `Bedrooms ≥ Bathrooms ≥ 1`: both are
floors of the same positive area over divisors `500 ≤ 667`, clamped to a
minimum of one. -/
theorem c10_bedrooms_ge_bathrooms (g : ℕ → Draws) :
    (create_dataset g).Forall (fun r =>
      1 ≤ r.Bathrooms ∧ r.Bathrooms ≤ r.Bedrooms) := by
  apply create_dataset_forall
  intro i d
  constructor
  · exact le_max_left 1 _
  · show max 1 (pyInt (areaOf d / 667)) ≤ max 1 (pyInt (areaOf d / 500))
    have ha : (0 : ℚ) ≤ areaOf d := le_of_lt (areaOf_pos d)
    rw [pyInt_of_nonneg (div_nonneg ha (by norm_num)),
      pyInt_of_nonneg (div_nonneg ha (by norm_num))]
    have hdiv : areaOf d / 667 ≤ areaOf d / 500 := by gcongr; norm_num
    exact max_le_max le_rfl (Int.floor_le_floor hdiv)
